import Mathlib

/-!
Verification of `src/exa_watcher.py` (PlethoraChutney/exawatcher).

Shallow embedding of the watcher's state machine: a RELION pipeline job's
status is classified from marker files in its directory
(`RelionJob.check_status`), compared against the status persisted in
`.exawatcher/last_status.txt` (`RelionJob.__init__`), and announced when it
changed (`Project.process_jobs`).  The database, lock and `main` control
flow are embedded below the job model.  Definitions come first, then the
lemmas and theorems about them.
-/

namespace ExaWatcher

/-- The five status strings a RELION job can carry in the script
(`'Pending'`, `'Running'`, `'Failed'`, `'User Abort'`, `'Finished'`). -/
inductive Status
  | Pending
  | Running
  | Failed
  | UserAbort
  | Finished
deriving DecidableEq, Repr

/-- The four marker files `RelionJob.check_status` probes in a job
directory: `run.out`, `RELION_JOB_EXIT_FAILURE`, `RELION_JOB_EXIT_ABORTED`,
`RELION_JOB_EXIT_SUCCESS`.  A field is `true` when the file exists. -/
structure Markers where
  runOut : Bool
  exitFailure : Bool
  exitAborted : Bool
  exitSuccess : Bool
deriving DecidableEq, Repr

/-- `RelionJob.check_status` (src lines 261-274): starts at `'Pending'` and
overwrites the status with each later check, so the last marker checked
wins: success over abort over failure over `run.out`. -/
def check_status (m : Markers) : Status :=
  let s0 := Status.Pending
  let s1 := if m.runOut then Status.Running else s0
  let s2 := if m.exitFailure then Status.Failed else s1
  let s3 := if m.exitAborted then Status.UserAbort else s2
  if m.exitSuccess then Status.Finished else s3

/-- The two status fields a `RelionJob` carries after `__init__`:
`old_status` read from `.exawatcher/last_status.txt` and `status` from
`check_status`. -/
structure JobInit where
  old_status : Status
  status : Status
deriving DecidableEq, Repr

/-- `RelionJob.__init__` (src lines 206-235): reads the persisted status,
seeding `'Pending'` when the `.exawatcher` directory or status file is
absent, classifies the markers, and then calls
`write_status(self.status)` unconditionally — so the value persisted by the
constructor is always `status`. -/
def relionJobInit (persisted : Option Status) (m : Markers) : JobInit :=
  { old_status := persisted.getD Status.Pending, status := check_status m }

/-- Observable effects of processing one job: number of Slack announcements
(`RelionJob.announce` calls) and number of `finished_process` runs. -/
structure JobEffects where
  notifications : Nat
  extractions : Nat
deriving DecidableEq, Repr

/-- One iteration of the loop in `Project.process_jobs` (src lines
196-202): `if job.status != job.old_status or force:` then
`finished_process()` when the status is `'Finished'`, and `announce()`. -/
def processJob (j : JobInit) (force : Bool) : JobEffects :=
  if j.status ≠ j.old_status ∨ force = true then
    { notifications := 1
      extractions := if j.status = Status.Finished then 1 else 0 }
  else
    { notifications := 0, extractions := 0 }

/-- The persisted state store: for each job path, the content of its
`.exawatcher/last_status.txt` file, `none` when the file does not exist. -/
abbrev Store := String → Option Status

/-- A job directory found by the `glob` walk of `Project.scan_for_jobs`:
its path and its three-digit job number. -/
structure FoundJob where
  path : String
  num : String
deriving DecidableEq, Repr

/-- Python dict assignment `d[k] = v` on an insertion-ordered association
list, as used for `self.usable_jobs[job_num] = ...` and
`self.db['projects'][project_name] = ...`. -/
def dictInsert {α : Type} (d : List (String × α)) (k : String) (v : α) :
    List (String × α) :=
  if d.any (fun q => q.1 == k) then
    d.map (fun q => if q.1 == k then (k, v) else q)
  else
    d ++ [(k, v)]

/-- `Project.scan_for_jobs` (src lines 171-194), specialised to the facts
the engine tracks: `env` gives the marker set currently on disk for each
job path, `store` the persisted status per job path.  Constructing each
`RelionJob` both reads the old status and persists the newly classified one
(`relionJobInit` with `write_status(self.status)`), and the job is recorded
in the `usable_jobs` dict keyed by its job number. -/
def scan_for_jobs (env : String → Markers) :
    Store → List (String × JobInit) → List FoundJob →
      Store × List (String × JobInit)
  | store, usable, [] => (store, usable)
  | store, usable, j :: rest =>
      scan_for_jobs env
        (fun q => if q = j.path
          then some (relionJobInit (store j.path) (env j.path)).status
          else store q)
        (dictInsert usable j.num (relionJobInit (store j.path) (env j.path)))
        rest

/-- `Project.process_jobs` (src lines 196-202): the effects of one pass
over the `usable_jobs` dict, in insertion order. -/
def process_jobs (usable : List (String × JobInit)) (force : Bool) :
    List (String × JobEffects) :=
  usable.map (fun q => (q.1, processJob q.2 force))

/-- Total number of Slack announcements produced by one pass. -/
def totalNotifications (out : List (String × JobEffects)) : Nat :=
  (out.map (fun q => q.2.notifications)).sum

/-- Number of announcements attributed to the job numbered `n`. -/
def notificationsFor (out : List (String × JobEffects)) (n : String) : Nat :=
  ((out.filter (fun q => q.1 == n)).map (fun q => q.2.notifications)).sum

/-- Number of `finished_process` runs attributed to the job numbered `n`. -/
def extractionsFor (out : List (String × JobEffects)) (n : String) : Nat :=
  ((out.filter (fun q => q.1 == n)).map (fun q => q.2.extractions)).sum

/-- One processing pass over one project, as `main` runs it (src lines
621-630): `scan_for_jobs` — which persists every scanned job's freshly
classified status — followed by `process_jobs`. -/
def runPass (env : String → Markers) (store : Store) (found : List FoundJob)
    (force : Bool) : Store × List (String × JobEffects) :=
  ((scan_for_jobs env store [] found).1,
    process_jobs (scan_for_jobs env store [] found).2 force)

/-- The `for project_name in process_targets` loop of `main` (src lines
621-630), returning the final persisted store and the total number of
notifications sent across all projects of the pass. -/
def runPassProjects (env : String → Markers) :
    Store → List (List FoundJob) → Bool → Store × Nat
  | store, [], _ => (store, 0)
  | store, proj :: rest, force =>
      ((runPassProjects env (runPass env store proj force).1 rest force).1,
        totalNotifications (runPass env store proj force).2 +
          (runPassProjects env (runPass env store proj force).1 rest force).2)

/-- Whether some found job has path `p`. -/
def pathScanned (found : List FoundJob) (p : String) : Bool :=
  found.any (fun j => j.path == p)

/-- Whether some project of the pass contains a job with path `p`. -/
def pathScannedProjects (projs : List (List FoundJob)) (p : String) : Bool :=
  projs.any (fun proj => pathScanned proj p)

/-- A job directory with no marker files at all. -/
def noMarkers : Markers :=
  { runOut := false, exitFailure := false, exitAborted := false,
    exitSuccess := false }

/-- A job directory carrying only `run.out`. -/
def runningMarkers : Markers :=
  { runOut := true, exitFailure := false, exitAborted := false,
    exitSuccess := false }

/-- `Project.process_jobs` when the Slack transport can fail:
`RelionJob.announce` (src lines 280-291) has no exception handler around
`chat_postMessage`, so a `SlackApiError` propagates out of the loop and
aborts the pass.  `transport n` tells whether posting job `n`'s message
succeeds.  Returns the per-job effects recorded up to the abort and the
number of the job whose announcement failed, if any; `finished_process`
has already run for the failing job (it is called before `announce`). -/
def process_jobs_exc :
    List (String × JobInit) → (String → Bool) → Bool →
      List (String × JobEffects) × Option String
  | [], _, _ => ([], none)
  | (n, ji) :: rest, transport, force =>
      if ji.status ≠ ji.old_status ∨ force = true then
        if transport n then
          ((n, processJob ji force) ::
              (process_jobs_exc rest transport force).1,
            (process_jobs_exc rest transport force).2)
        else
          ([(n, { notifications := 0
                  extractions :=
                    if ji.status = Status.Finished then 1 else 0 })],
            some n)
      else
        ((n, { notifications := 0, extractions := 0 }) ::
            (process_jobs_exc rest transport force).1,
          (process_jobs_exc rest transport force).2)

/-- One pass with fallible transport: `scan_for_jobs` (which persists every
scanned job's classified status) runs entirely before `process_jobs`. -/
def runPassExc (env : String → Markers) (store : Store)
    (found : List FoundJob) (transport : String → Bool) (force : Bool) :
    Store × List (String × JobEffects) × Option String :=
  ((scan_for_jobs env store [] found).1,
    process_jobs_exc (scan_for_jobs env store [] found).2 transport force)

/-- The faults that abort the processing phase of `main`. -/
inductive PassError
  | lockContention
  | slackAuthFailed
  | transportFailed (jobNum : String)
deriving DecidableEq, Repr

/-- The processing phase of `main` (src lines 604-632) together with
`Database.check_lock` and `Database.close_db` (src lines 124-142): when no
lock file exists, `check_lock` creates it; `create_slack_client` may
`sys.exit(2)` (src lines 560-569); an uncaught exception while processing
propagates out of `main`; only the final `db.close_db()` removes the lock
file — there is no try/finally.  Returns whether the lock file exists
after the invocation, the final store, and the fault if any. -/
def watcherMain (lockExists : Bool) (slackOk : Bool)
    (env : String → Markers) (store : Store) (found : List FoundJob)
    (transport : String → Bool) (force : Bool) :
    Bool × Store × Option PassError :=
  if lockExists then
    (true, store, some PassError.lockContention)
  else if slackOk = false then
    (true, store, some PassError.slackAuthFailed)
  else
    match (runPassExc env store found transport force).2.2 with
    | some n =>
        (true, (runPassExc env store found transport force).1,
          some (PassError.transportFailed n))
    | none =>
        (false, (runPassExc env store found transport force).1, none)

/-- `Database.clear_lock` (src lines 131-133): the `--clear-lock` escape
hatch removes the lock file unconditionally. -/
def clear_lock (_lockExists : Bool) : Bool := false

/-- The `settings` sub-dictionary of the database (`Settings.settings`). -/
structure SettingsData where
  projection : Option String
  ignore_jobs : List String
deriving DecidableEq, Repr

/-- The empty settings dict, `Settings({})`. -/
def emptySettings : SettingsData :=
  { projection := none, ignore_jobs := [] }

/-- The JSON database file on disk: absent; a pre-migration layout without
a `version` key whose project paths are top-level entries; or the migrated
layout with `version` and a `projects` sub-dictionary. -/
inductive DbFile
  | missing
  | legacy (entries : List (String × String))
      (slack_key slack_dm : Option String) (settings : Option SettingsData)
  | versioned (projects : List (String × String))
      (slack_key slack_dm : Option String) (settings : Option SettingsData)
deriving DecidableEq, Repr

/-- The in-memory `Database.db` dictionary after `__init__`: which keys are
present and their values.  `projects = none` models the `projects` key
being absent (as on a fresh installation); `hasVersion` records whether a
`version` key is present. -/
structure DB where
  hasVersion : Bool
  projects : Option (List (String × String))
  slack_key : Option String
  slack_dm : Option String
  settings : SettingsData
deriving DecidableEq, Repr

/-- `Database.__init__` (src lines 82-100): a missing file yields the empty
dict — in particular no `projects` key; a file without a `version` key is
migrated by moving its project entries under `projects` and setting
`version = 1`; a versioned file is used as-is.  `Settings` is built from
the `settings` key, `{}` when absent. -/
def database_init : DbFile → DB
  | DbFile.missing =>
      { hasVersion := false, projects := none, slack_key := none,
        slack_dm := none, settings := emptySettings }
  | DbFile.legacy entries sk dm st =>
      { hasVersion := true, projects := some entries, slack_key := sk,
        slack_dm := dm, settings := st.getD emptySettings }
  | DbFile.versioned ps sk dm st =>
      { hasVersion := true, projects := some ps, slack_key := sk,
        slack_dm := dm, settings := st.getD emptySettings }

/-- `Database.commit_change` (src lines 135-138): stores the settings dict
under the `settings` key and dumps the whole in-memory dict to the file,
which therefore carries `version` and `projects` keys exactly when the
in-memory dict does. -/
def commit_change (db : DB) : DbFile :=
  if db.hasVersion then
    DbFile.versioned (db.projects.getD []) db.slack_key db.slack_dm
      (some db.settings)
  else
    DbFile.legacy (db.projects.getD []) db.slack_key db.slack_dm
      (some db.settings)

/-- `Database.current_projects` (src lines 120-122):
`self.db['projects'].keys()` raises `KeyError` when the key is absent. -/
def current_projects (db : DB) : Except String (List String) :=
  match db.projects with
  | none => Except.error "KeyError: projects"
  | some ps => Except.ok (ps.map Prod.fst)

/-- `os.path.split(path)[1]`: the final component of the path. -/
def basename (s : String) : String := (s.splitOn "/").getLastD ""

/-- `Database.new_project` (src lines 144-152): exits when the directory
does not exist; otherwise stores the directory under its basename in
`db['projects']` — raising `KeyError` on a fresh database, where that key
is absent — and commits.  Returns the updated dict and file. -/
def new_project (dirExists : Bool) (db : DB) (project_dir : String) :
    Except String (DB × DbFile) :=
  if dirExists = false then
    Except.error "exit 1: give a path to a RELION project"
  else
    match db.projects with
    | none => Except.error "KeyError: projects"
    | some ps =>
        let ps2 := dictInsert ps (basename project_dir) project_dir
        let db2 := { db with projects := some ps2 }
        Except.ok (db2, commit_change db2)

/-- `Database.remove_project` (src lines 154-158): deletes the entry from
the in-memory dict; a `KeyError` (unknown name, or no `projects` key at
all) is caught and only logged.  Note: there is no `commit_change` call. -/
def remove_project (db : DB) (name : String) : DB :=
  match db.projects with
  | none => db
  | some ps =>
      if ps.any (fun q => q.1 == name) then
        { db with projects := some (ps.filter (fun q => q.1 != name)) }
      else db

/-- The command-line arguments relevant to the database phase of `main`. -/
structure Args where
  new_project_arg : Option String
  slack_key_arg : Option String
  slack_dm_arg : Option String
  remove_project_arg : Option String
  set_map_process_arg : Option String
deriving DecidableEq, Repr

/-- The database phase of `main` (src lines 571-605), tracking the on-disk
file across one invocation: `--new-project` commits, the `slack_key` and
`slack_dm` setters commit, `--remove-project` mutates only the in-memory
dict, `--set-map-process` commits.  When no processing is requested `main`
exits right after this phase (before any `close_db`), so the returned file
is what a later invocation reloads. -/
def main_db_phase (dirExists : Bool) (disk0 : DbFile) (args : Args) :
    Except String (DB × DbFile) := do
  let db0 := database_init disk0
  let s1 ← match args.new_project_arg with
    | none => Except.ok (db0, disk0)
    | some d => new_project dirExists db0 d
  let s2 := match args.slack_key_arg with
    | none => s1
    | some k =>
        let db := { s1.1 with slack_key := some k }
        (db, commit_change db)
  let s3 := match args.slack_dm_arg with
    | none => s2
    | some v =>
        let db := { s2.1 with slack_dm := some v }
        (db, commit_change db)
  let s4 : DB × DbFile := match args.remove_project_arg with
    | none => s3
    | some n => (remove_project s3.1 n, s3.2)
  let s5 := match args.set_map_process_arg with
    | none => s4
    | some m =>
        let db := { s4.1 with settings :=
          { s4.1.settings with projection := some m } }
        (db, commit_change db)
  Except.ok s5

/-! Lemmas about the pass machinery. -/

lemma scan_for_jobs_store (env : String → Markers) (found : List FoundJob) :
    ∀ (store : Store) (usable : List (String × JobInit)) (p : String),
      (scan_for_jobs env store usable found).1 p =
        if pathScanned found p then some (check_status (env p))
        else store p := by
  induction found with
  | nil =>
      intro store usable p
      simp [scan_for_jobs, pathScanned]
  | cons j rest ih =>
      intro store usable p
      simp only [scan_for_jobs]
      rw [ih]
      simp only [pathScanned, List.any_cons]
      by_cases hrest : rest.any (fun q => q.path == p) = true
      · simp [pathScanned, hrest]
      · simp only [pathScanned, hrest, Bool.or_false]
        by_cases hjp : j.path = p
        · subst hjp
          simp [relionJobInit]
        · have h1 : (j.path == p) = false := by
            simpa using hjp
          have h2 : ¬ p = j.path := fun hc => hjp hc.symm
          simp [h1, h2]

lemma runPass_store (env : String → Markers) (store : Store)
    (found : List FoundJob) (force : Bool) (p : String) :
    (runPass env store found force).1 p =
      if pathScanned found p then some (check_status (env p))
      else store p :=
  scan_for_jobs_store env found store [] p

lemma dictInsert_forall {α : Type} (P : α → Prop) (d : List (String × α))
    (k : String) (v : α) (hd : ∀ q ∈ d, P q.2) (hv : P v) :
    ∀ q ∈ dictInsert d k v, P q.2 := by
  intro q hq
  unfold dictInsert at hq
  by_cases hc : d.any (fun r => r.1 == k) = true
  · rw [if_pos hc] at hq
    rcases List.mem_map.mp hq with ⟨r, hr, hrq⟩
    by_cases hrk : (r.1 == k) = true
    · rw [if_pos hrk] at hrq
      rw [← hrq]
      exact hv
    · rw [if_neg hrk] at hrq
      rw [← hrq]
      exact hd r hr
  · rw [if_neg hc] at hq
    rcases List.mem_append.mp hq with h | h
    · exact hd q h
    · rw [List.mem_singleton.mp h]
      exact hv

lemma scan_for_jobs_steady (env : String → Markers) (found : List FoundJob) :
    ∀ (store : Store) (usable : List (String × JobInit)),
      (∀ j ∈ found, store j.path = some (check_status (env j.path))) →
      (∀ q ∈ usable, (q.2 : JobInit).status = q.2.old_status) →
      ∀ q ∈ (scan_for_jobs env store usable found).2,
        (q.2 : JobInit).status = q.2.old_status := by
  induction found with
  | nil =>
      intro store usable _ hus
      simpa [scan_for_jobs] using hus
  | cons j rest ih =>
      intro store usable hst hus
      simp only [scan_for_jobs]
      apply ih
      · intro j' hj'
        by_cases hp : j'.path = j.path
        · simp only [hp, if_pos rfl]
          have h := hst j (List.mem_cons_self j rest)
          rw [h]
          rfl
        · simp only [if_neg hp]
          exact hst j' (List.mem_cons_of_mem j hj')
      · apply dictInsert_forall (fun x => x.status = x.old_status)
          usable j.num _ hus
        have h := hst j (List.mem_cons_self j rest)
        show (relionJobInit (store j.path) (env j.path)).status =
          (relionJobInit (store j.path) (env j.path)).old_status
        rw [h]
        rfl

lemma processJob_steady (ji : JobInit) (h : ji.status = ji.old_status) :
    processJob ji false = { notifications := 0, extractions := 0 } := by
  unfold processJob
  rw [if_neg]
  intro hc
  cases hc with
  | inl hne => exact hne h
  | inr hf => exact Bool.false_ne_true hf

lemma totalNotifications_steady (usable : List (String × JobInit))
    (h : ∀ q ∈ usable, (q.2 : JobInit).status = q.2.old_status) :
    totalNotifications (process_jobs usable false) = 0 := by
  induction usable with
  | nil => rfl
  | cons q rest ih =>
      have hq := processJob_steady q.2 (h q (List.mem_cons_self q rest))
      have hrest := ih (fun r hr => h r (List.mem_cons_of_mem q hr))
      simp only [process_jobs, List.map_cons, totalNotifications,
        List.sum_cons] at hrest ⊢
      rw [hq, hrest]

lemma runPass_silent (env : String → Markers) (store : Store)
    (found : List FoundJob)
    (hst : ∀ j ∈ found, store j.path = some (check_status (env j.path))) :
    totalNotifications (runPass env store found false).2 = 0 := by
  apply totalNotifications_steady
  apply scan_for_jobs_steady env found store [] hst
  intro q hq
  cases hq

lemma runPassProjects_silent (env : String → Markers)
    (projs : List (List FoundJob)) :
    ∀ store : Store,
      (∀ proj ∈ projs, ∀ j ∈ proj,
        store j.path = some (check_status (env j.path))) →
      (runPassProjects env store projs false).2 = 0 := by
  induction projs with
  | nil => intro store _; rfl
  | cons proj rest ih =>
      intro store h
      have h1 : totalNotifications (runPass env store proj false).2 = 0 :=
        runPass_silent env store proj
          (fun j hj => h proj (List.mem_cons_self proj rest) j hj)
      have h2 :
          (runPassProjects env (runPass env store proj false).1
            rest false).2 = 0 := by
        apply ih
        intro proj' hproj' j hj
        rw [runPass_store]
        by_cases hs : pathScanned proj j.path = true
        · rw [if_pos hs]
        · rw [if_neg hs]
          exact h proj' (List.mem_cons_of_mem proj hproj') j hj
      simp only [runPassProjects]
      rw [h1, h2]

lemma runPassProjects_store (env : String → Markers)
    (projs : List (List FoundJob)) :
    ∀ (store : Store) (force : Bool) (p : String),
      (runPassProjects env store projs force).1 p =
        if pathScannedProjects projs p then some (check_status (env p))
        else store p := by
  induction projs with
  | nil =>
      intro store force p
      simp [runPassProjects, pathScannedProjects]
  | cons proj rest ih =>
      intro store force p
      simp only [runPassProjects]
      rw [ih, runPass_store]
      simp only [pathScannedProjects, List.any_cons]
      by_cases h1 : rest.any (fun pr => pathScanned pr p) = true
      · simp [pathScannedProjects, h1]
      · simp only [pathScannedProjects] at h1
        simp [h1]

lemma process_jobs_cons (q : String × JobInit)
    (rest : List (String × JobInit)) (force : Bool) :
    process_jobs (q :: rest) force =
      (q.1, processJob q.2 force) :: process_jobs rest force := rfl

lemma process_jobs_filter_not_mem (n : String) :
    ∀ usable : List (String × JobInit),
      (n ∉ usable.map Prod.fst) →
      (process_jobs usable false).filter (fun q => q.1 == n) = [] := by
  intro usable
  induction usable with
  | nil => intro _; rfl
  | cons q rest ih =>
      intro h
      have hq : ¬ q.1 = n := by
        intro hc
        exact h (by simp [hc])
      have hrest : n ∉ rest.map Prod.fst := by
        intro hc
        exact h (by simp [hc])
      rw [process_jobs_cons]
      rw [List.filter_cons_of_neg (by simpa using hq)]
      exact ih hrest

lemma process_jobs_filter_eq (usable : List (String × JobInit))
    (n : String) (ji : JobInit) (hmem : (n, ji) ∈ usable)
    (hkeys : (usable.map Prod.fst).Nodup) :
    (process_jobs usable false).filter (fun q => q.1 == n) =
      [(n, processJob ji false)] := by
  induction usable with
  | nil => cases hmem
  | cons q rest ih =>
      have hkeys' : q.1 ∉ rest.map Prod.fst ∧
          (rest.map Prod.fst).Nodup := by
        rw [List.map_cons, List.nodup_cons] at hkeys
        exact ⟨hkeys.1, hkeys.2⟩
      rcases List.mem_cons.mp hmem with heq | hmem'
      · have hq : q = (n, ji) := heq.symm
        subst hq
        rw [process_jobs_cons]
        rw [List.filter_cons_of_pos (by simp)]
        rw [process_jobs_filter_not_mem n rest hkeys'.1]
      · have hq : ¬ q.1 = n := by
          intro hc
          apply hkeys'.1
          rw [hc]
          exact List.mem_map.mpr ⟨(n, ji), hmem', rfl⟩
        rw [process_jobs_cons]
        rw [List.filter_cons_of_neg (by simpa using hq)]
        exact ih hmem' hkeys'.2

lemma process_jobs_exc_abort (transport : String → Bool) (force : Bool) :
    ∀ (usable : List (String × JobInit)) (n : String),
      (process_jobs_exc usable transport force).2 = some n →
      ((process_jobs_exc usable transport force).1.map
        Prod.fst).getLast? = some n := by
  intro usable
  induction usable with
  | nil => intro n h; cases h
  | cons q rest ih =>
      intro n h
      rcases q with ⟨m, ji⟩
      by_cases hc : ji.status ≠ ji.old_status ∨ force = true
      · by_cases ht : transport m = true
        · simp only [process_jobs_exc, if_pos hc, if_pos ht] at h ⊢
          have htail := ih n h
          cases hrest :
              (process_jobs_exc rest transport force).1.map Prod.fst with
          | nil => rw [hrest] at htail; cases htail
          | cons x xs =>
              rw [hrest] at htail
              rw [List.map_cons, hrest, List.getLast?_cons_cons]
              exact htail
        · simp only [process_jobs_exc, if_pos hc, if_neg ht] at h ⊢
          simpa using h
      · simp only [process_jobs_exc, if_neg hc] at h ⊢
        have htail := ih n h
        cases hrest :
            (process_jobs_exc rest transport force).1.map Prod.fst with
        | nil => rw [hrest] at htail; cases htail
        | cons x xs =>
            rw [hrest] at htail
            rw [List.map_cons, hrest, List.getLast?_cons_cons]
            exact htail

/-! The claims. -/

/-- C1: in one processing pass, every tracked job whose classified status
differs from the persisted one (and is not Pending) is announced exactly
once, and `finished_process` runs for it exactly when the new status is
Finished. -/
theorem c1_exactly_one_on_change (usable : List (String × JobInit))
    (n : String) (ji : JobInit) (hmem : (n, ji) ∈ usable)
    (hkeys : (usable.map Prod.fst).Nodup)
    (hdiff : ji.status ≠ ji.old_status)
    (_hnp : ji.status ≠ Status.Pending) :
    notificationsFor (process_jobs usable false) n = 1 ∧
    extractionsFor (process_jobs usable false) n =
      (if ji.status = Status.Finished then 1 else 0) := by
  have hf := process_jobs_filter_eq usable n ji hmem hkeys
  have hp : processJob ji false =
      { notifications := 1
        extractions := if ji.status = Status.Finished then 1 else 0 } := by
    unfold processJob
    rw [if_pos (Or.inl hdiff)]
  unfold notificationsFor extractionsFor
  rw [hf]
  rw [hp]
  constructor
  · simp
  · simp

/-- Witness for C1: a single freshly Finished job is announced once and
extracted once. -/
theorem c1_witness :
    notificationsFor (process_jobs
      [("001", { old_status := Status.Pending, status := Status.Finished })]
      false) "001" = 1 ∧
    extractionsFor (process_jobs
      [("001", { old_status := Status.Pending, status := Status.Finished })]
      false) "001" =
      (if (Status.Finished : Status) = Status.Finished then 1 else 0) :=
  c1_exactly_one_on_change _ "001"
    { old_status := Status.Pending, status := Status.Finished }
    (by simp) (by simp) (by decide) (by decide)

/-- C2: running the pass twice in succession over the same projects, with
the markers on disk unchanged and without `--force-process`, produces zero
notifications on the second pass: each `RelionJob.__init__` of the first
pass persisted the classified status unconditionally, so on the second
pass every job's `old_status` equals its freshly classified `status`. -/
theorem c2_second_pass_silent (env : String → Markers) (store : Store)
    (projs : List (List FoundJob)) :
    (runPassProjects env
      (runPassProjects env store projs false).1 projs false).2 = 0 := by
  apply runPassProjects_silent
  intro proj hproj j hj
  rw [runPassProjects_store]
  rw [if_pos]
  simp only [pathScannedProjects, List.any_eq_true]
  refine ⟨proj, hproj, ?_⟩
  simp only [pathScanned, List.any_eq_true]
  exact ⟨j, hj, by simp⟩

/-- C3: classification is a pure function of the marker set and applies the
fixed precedence Finished over User Abort over Failed over Running over
Pending; in particular any marker set containing `run.out`,
`RELION_JOB_EXIT_FAILURE` and `RELION_JOB_EXIT_SUCCESS` simultaneously
classifies as Finished, independent of any enumeration order. -/
theorem c3_precedence :
    (∀ m : Markers,
      check_status m =
        if m.exitSuccess then Status.Finished
        else if m.exitAborted then Status.UserAbort
        else if m.exitFailure then Status.Failed
        else if m.runOut then Status.Running
        else Status.Pending) ∧
    (∀ ab : Bool,
      check_status
        { runOut := true, exitFailure := true, exitAborted := ab,
          exitSuccess := true } = Status.Finished) := by
  constructor
  · intro m
    cases m with
    | mk r f a s => cases r <;> cases f <;> cases a <;> cases s <;> rfl
  · intro ab
    cases ab <;> rfl

/-- C4 counterexample: a job whose persisted status is Running and whose
directory has lost all markers classifies as Pending, yet
`Project.process_jobs` does send a notification for it (the code has no
`status != 'Pending'` guard; the message table even carries a Pending
emoji).  This refutes the claim that an entity classified Pending is never
notified. -/
theorem c4_counterexample :
    (relionJobInit (some Status.Running) noMarkers).status =
      Status.Pending ∧
    (processJob (relionJobInit (some Status.Running) noMarkers)
      false).notifications = 1 := by
  constructor
  · rfl
  · rfl

/-- C4 amended: for every entity whose classified current state is Pending,
no extraction is ever invoked; however a notification is sent exactly when
the previously persisted state differs from Pending (or force is set) — a
transition into Pending does notify. -/
theorem c4_pending_never_extracts (ji : JobInit) (force : Bool)
    (h : ji.status = Status.Pending) :
    (processJob ji force).extractions = 0 ∧
    (processJob ji force).notifications =
      (if ji.status ≠ ji.old_status ∨ force = true then 1 else 0) := by
  unfold processJob
  by_cases hc : ji.status ≠ ji.old_status ∨ force = true
  · rw [if_pos hc, if_pos hc]
    refine ⟨?_, rfl⟩
    show (if ji.status = Status.Finished then 1 else 0) = 0
    rw [h]
    rfl
  · rw [if_neg hc, if_neg hc]
    exact ⟨rfl, rfl⟩

/-- Witness for the amended C4 at a concrete transition Running → Pending. -/
theorem c4_witness :
    (processJob { old_status := Status.Running, status := Status.Pending }
      false).extractions = 0 ∧
    (processJob { old_status := Status.Running, status := Status.Pending }
      false).notifications =
      (if (Status.Pending : Status) ≠ Status.Running ∨ False = true
        then 1 else 0) :=
  c4_pending_never_extracts
    { old_status := Status.Running, status := Status.Pending } false rfl

/-- C5 counterexample: a job whose classified status equals its persisted
status (Running, with `run.out` present) is nevertheless announced when the
`--force-process` flag is set, because the loop condition is
`job.status != job.old_status or force`.  This refutes the claim that an
unchanged entity is never notified even under force. -/
theorem c5_counterexample :
    (relionJobInit (some Status.Running) runningMarkers).status =
      (relionJobInit (some Status.Running) runningMarkers).old_status ∧
    (processJob (relionJobInit (some Status.Running) runningMarkers)
      true).notifications = 1 := by
  constructor
  · rfl
  · rfl

/-- C5 amended: an entity whose classified state equals the persisted one
is notified exactly when the force flag is set — without force no
notification is sent, and deleting the persisted record (making the read
seed Pending) is the way to re-trigger without force. -/
theorem c5_unchanged_notifies_iff_force (ji : JobInit) (force : Bool)
    (h : ji.status = ji.old_status) :
    (processJob ji force).notifications = (if force then 1 else 0) := by
  unfold processJob
  cases force with
  | false =>
      rw [if_neg]
      · rfl
      · intro hc
        cases hc with
        | inl hne => exact hne h
        | inr hf => exact Bool.false_ne_true hf
  | true =>
      rw [if_pos (Or.inr rfl)]
      rfl

/-- Witness for the amended C5 at a concrete unchanged Running job. -/
theorem c5_witness :
    (processJob { old_status := Status.Running, status := Status.Running }
      true).notifications = (if true then 1 else 0) :=
  c5_unchanged_notifies_iff_force
    { old_status := Status.Running, status := Status.Running } true rfl

/-- C6 counterexample: with an empty Scanner output and a store holding a
Finished record for identity "J2", the record is still present after the
pass — the claim says it must have been pruned.  The script has no prune
operation at all. -/
theorem c6_counterexample :
    (runPass (fun _ => noMarkers)
      (fun p => if p = "J2" then some Status.Finished else none)
      [] false).1 "J2" = some Status.Finished := by
  rfl

/-- C6 amended: no garbage collection happens: every identity absent from
the Scanner's output keeps its persisted record unchanged after the pass
(a record disappears only if its job directory is deleted out from under
the watcher, which deletes the status file with it). -/
theorem c6_no_prune (env : String → Markers) (store : Store)
    (found : List FoundJob) (force : Bool) (p : String)
    (h : ∀ j ∈ found, j.path ≠ p) :
    (runPass env store found force).1 p = store p := by
  rw [runPass_store]
  rw [if_neg]
  simp only [pathScanned, List.any_eq_true, not_exists]
  intro j
  simp only [not_and, beq_iff_eq]
  exact h j

/-- Witness for the amended C6: a store record for path "B" survives a
pass that scanned only path "A". -/
theorem c6_witness :
    (runPass (fun _ => runningMarkers) (fun _ => some Status.Running)
      [{ path := "A", num := "001" }] false).1 "B" =
      some Status.Running :=
  c6_no_prune _ _ _ _ _ (by decide)

/-- C7 counterexample: the lock is acquired (no lock file existed), the
only job's transition announcement fails, the `SlackApiError` propagates
out of `main`, and the lock file still exists when the process exits —
refuting the claim that the sentinel is removed on every path. -/
theorem c7_counterexample :
    (watcherMain false true (fun _ => runningMarkers) (fun _ => none)
      [{ path := "Class3D/job001", num := "001" }]
      (fun _ => false) false).1 = true ∧
    (watcherMain false true (fun _ => runningMarkers) (fun _ => none)
      [{ path := "Class3D/job001", num := "001" }]
      (fun _ => false) false).2.2 =
      some (PassError.transportFailed "001") := by
  constructor
  · rfl
  · rfl

/-- C7 amended: the lock sentinel is removed only when the processing pass
completes without error; on every error path — lock contention, Slack
authentication failure after acquiring the lock (`sys.exit(2)`), or an
uncaught transport exception mid-pass — the sentinel remains on disk and
the operator must use the `--clear-lock` escape hatch
(`Database.clear_lock`). -/
theorem c7_lock_released_iff_success (lockExists slackOk : Bool)
    (env : String → Markers) (store : Store) (found : List FoundJob)
    (transport : String → Bool) (force : Bool) :
    ((watcherMain lockExists slackOk env store found transport force).1
        = false ↔
      (watcherMain lockExists slackOk env store found transport force).2.2
        = none) ∧
    clear_lock
      (watcherMain lockExists slackOk env store found transport force).1
      = false := by
  refine ⟨?_, rfl⟩
  cases lockExists with
  | true => simp [watcherMain]
  | false =>
      cases slackOk with
      | false => simp [watcherMain]
      | true =>
          simp only [watcherMain]
          cases herr : (runPassExc env store found transport force).2.2 with
          | none => simp [herr]
          | some n => simp [herr]

/-- Witness for the amended C7 at a concrete failure-free invocation. -/
theorem c7_witness :
    ((watcherMain false true (fun _ => noMarkers) (fun _ => none) []
      (fun _ => true) false).1 = false ↔
      (watcherMain false true (fun _ => noMarkers) (fun _ => none) []
        (fun _ => true) false).2.2 = none) ∧
    clear_lock (watcherMain false true (fun _ => noMarkers)
      (fun _ => none) [] (fun _ => true) false).1 = false :=
  c7_lock_released_iff_success false true _ _ _ _ _

/-- C8 counterexample: two jobs have both transitioned Pending → Running;
the transport fails on the first announcement, the uncaught
`SlackApiError` aborts `process_jobs`, and the second job is never
announced in this pass — refuting the claim that a delivery failure is
logged and the remaining entities are still processed. -/
theorem c8_counterexample :
    process_jobs_exc
      [("001", { old_status := Status.Pending, status := Status.Running }),
        ("002", { old_status := Status.Pending, status := Status.Running })]
      (fun _ => false) false =
      ([("001", { notifications := 0, extractions := 0 })], some "001") := by
  rfl

/-- C8 amended: a transport failure aborts the pass uncaught — the
recorded per-job output ends at the failing job, so later entities are not
announced — but every scanned job's classified state was already persisted
by `scan_for_jobs` before processing began, so the persisted store equals
that of a failure-free pass, and a next pass over unchanged markers sends
zero notifications: no transition of the aborted pass, the failed one
included, is re-announced (at-most-once delivery). -/
theorem c8_at_most_once (env : String → Markers) (store : Store)
    (found : List FoundJob) (transport : String → Bool) (force : Bool) :
    (runPassExc env store found transport force).1 =
      (runPass env store found force).1 ∧
    (∀ n, (runPassExc env store found transport force).2.2 = some n →
      ((runPassExc env store found transport force).2.1.map
        Prod.fst).getLast? = some n) ∧
    totalNotifications
      (runPass env (runPassExc env store found transport force).1
        found false).2 = 0 := by
  refine ⟨rfl, ?_, ?_⟩
  · intro n h
    exact process_jobs_exc_abort transport force _ n h
  · apply runPass_silent
    intro j hj
    show (scan_for_jobs env store [] found).1 j.path =
      some (check_status (env j.path))
    rw [scan_for_jobs_store]
    rw [if_pos]
    simp only [pathScanned, List.any_eq_true]
    exact ⟨j, hj, by simp⟩

/-- Witness for the amended C8: one changed job, failing transport — the
output ends at job "001" and the follow-up pass is silent. -/
theorem c8_witness :
    ((runPassExc (fun _ => runningMarkers) (fun _ => none)
      [{ path := "A", num := "001" }] (fun _ => false) false).2.1.map
        Prod.fst).getLast? = some "001" ∧
    totalNotifications
      (runPass (fun _ => runningMarkers)
        (runPassExc (fun _ => runningMarkers) (fun _ => none)
          [{ path := "A", num := "001" }] (fun _ => false) false).1
        [{ path := "A", num := "001" }] false).2 = 0 := by
  have h := c8_at_most_once (fun _ => runningMarkers) (fun _ => none)
    [{ path := "A", num := "001" }] (fun _ => false) false
  exact ⟨h.2.1 "001" (by rfl), h.2.2⟩

/-- C9 is a code bug: `Database.remove_project` deletes the entry only in
memory and never calls `commit_change`, and an invocation that only
removes a project exits before any `close_db`.  Evaluating the code at the
failing input — a database holding project "ProjA" and the invocation
`--remove-project ProjA` — the in-memory dict drops the project but the
file on disk is unchanged, so reloading it still lists "ProjA". -/
theorem c9_remove_project_not_committed :
    main_db_phase true
      (DbFile.versioned [("ProjA", "/data/ProjA")] none none none)
      { new_project_arg := none, slack_key_arg := none,
        slack_dm_arg := none, remove_project_arg := some "ProjA",
        set_map_process_arg := none } =
      Except.ok
        ({ hasVersion := true, projects := some [], slack_key := none,
            slack_dm := none, settings := emptySettings },
          DbFile.versioned [("ProjA", "/data/ProjA")] none none none) ∧
    current_projects (database_init
      (DbFile.versioned [("ProjA", "/data/ProjA")] none none none)) =
      Except.ok ["ProjA"] := by
  constructor
  · rfl
  · rfl

/-- C10: on a fresh installation (no database file) `Database.__init__`
yields the empty dict without a `projects` key, so the first
project-touching operation — `new_project`, or `current_projects` (used
both by `--list-projects` and by `--process-all` to compute the process
targets) — raises an uncaught `KeyError` instead of succeeding on an
empty registry. -/
theorem c10_fresh_db_keyerror :
    (database_init DbFile.missing).projects = none ∧
    (∀ d : String, new_project true (database_init DbFile.missing) d =
      Except.error "KeyError: projects") ∧
    current_projects (database_init DbFile.missing) =
      Except.error "KeyError: projects" := by
  refine ⟨rfl, ?_, rfl⟩
  intro d
  rfl

end ExaWatcher
